import Mathlib

/-!
Shallow embedding of the motion-canvas scene/stage core:
the time-event ledger, scheduler step, layout retry loop of `Scene`,
and the compositing / motion-blur configuration of `Stage`.
Times are modelled as rationals (seconds), frames as integers.
JS string-keyed objects are modelled as association lists that keep
insertion order, matching `Object.values` enumeration order.
-/

namespace MotionCanvas

/-- A named, adjustable target timing within a scene's timeline
(`TimeEvent` in the source). -/
structure TimeEvent where
  name : String
  initialTime : ℚ
  targetTime : ℚ
  offset : ℚ
deriving DecidableEq, Repr

/-- A JS object keyed by strings holding `TimeEvent`s, as an insertion-ordered
association list (`Record<string, TimeEvent>` in the source). -/
abbrev EventMap := List (String × TimeEvent)

namespace EventMap

/-- Property read `m[k]`. -/
def get : EventMap → String → Option TimeEvent
  | [], _ => none
  | (k', v') :: rest, k => if k' = k then some v' else get rest k

/-- Property write `m[k] = v`: updates in place if the key exists,
otherwise appends, as JS objects do. -/
def set : EventMap → String → TimeEvent → EventMap
  | [], k, v => [(k, v)]
  | (k', v') :: rest, k, v =>
    if k' = k then (k, v) :: rest else (k', v') :: set rest k v

/-- `Object.values(m)`, in insertion order. -/
def values (m : EventMap) : List TimeEvent := m.map Prod.snd

/-- The keys of the map, in insertion order. -/
def keys (m : EventMap) : List String := m.map Prod.fst

/-- JS object spread `{...base, ...overlay}`: overlay entries update base
entries in place, new keys are appended in overlay order. -/
def merge (base overlay : EventMap) : EventMap :=
  overlay.foldl (fun acc p => acc.set p.1 p.2) base

end EventMap

/-- The durable timing store (per §6 a key-value persistence surface keyed by
`scene-{project}-{sceneName}`); values are the JSON-serialised event maps.
Serialisation is lossless for these records, so values are kept structured. -/
abbrev Storage := List (String × EventMap)

namespace Storage

/-- `localStorage.getItem(key)`. -/
def get : Storage → String → Option EventMap
  | [], _ => none
  | (k', v') :: rest, k => if k' = k then some v' else get rest k

/-- `localStorage.setItem(key, value)`. -/
def set : Storage → String → EventMap → Storage
  | [], k, v => [(k, v)]
  | (k', v') :: rest, k, v =>
    if k' = k then (k, v) :: rest else (k', v') :: set rest k v

end Storage

/-- The state of one `Scene` relevant to the time-event ledger, together with
the owning project's current frame (`project.frame`) and the accumulated
listener notifications of `timeEventsChanged` (each dispatch appends the full
event list it delivered). -/
structure SceneModel where
  storageKey : String
  firstFrame : ℤ
  duration : ℤ
  frame : ℤ
  timeEventLookup : EventMap
  storedEventLookup : EventMap
  cached : Bool
  preserveEvents : Bool
  notifications : List (List TimeEvent)
deriving DecidableEq, Repr

namespace Scene

/-- The storage key built in the constructor:
`` `scene-${this.project.name()}-${this.name()}` ``. -/
def mkStorageKey (projectName sceneName : String) : String :=
  "scene-" ++ projectName ++ "-" ++ sceneName

/-- The constructor's loading loop: for each stored value, index it under
`event.name` (`this.storedEventLookup[event.name] = event`). -/
def loadStored (events : List TimeEvent) : EventMap :=
  events.foldl (fun acc e => acc.set e.name e) []

/-- The `Scene` constructor: builds the storage key, reads any stored events
from the durable store and indexes them by name. Live events start empty,
`cached` and `preserveEvents` start `false`. -/
def construct (projectName sceneName : String) (frame : ℤ)
    (storage : Storage) : SceneModel :=
  let storageKey := mkStorageKey projectName sceneName
  { storageKey := storageKey
    firstFrame := 0
    duration := 0
    frame := frame
    timeEventLookup := []
    storedEventLookup :=
      match storage.get storageKey with
      | some stored => loadStored stored.values
      | none => []
    cached := false
    preserveEvents := false
    notifications := [] }

/-- `Scene.getFrameEvent(name)`, parameterised by the project's
`framesToSeconds` / `secondsToFrames` conversions. Returns the updated scene
state and the returned frame number. -/
def getFrameEvent (fts : ℤ → ℚ) (stf : ℚ → ℤ) (s : SceneModel)
    (name : String) : SceneModel × ℤ :=
  let initialTime := fts (s.frame - s.firstFrame)
  let s' :=
    match s.timeEventLookup.get name with
    | none =>
      let event : TimeEvent :=
        { name := name
          initialTime := initialTime
          targetTime :=
            ((s.storedEventLookup.get name).map TimeEvent.targetTime).getD
              initialTime
          offset := ((s.storedEventLookup.get name).map TimeEvent.offset).getD 0 }
      let event :=
        match s.storedEventLookup.get name with
        | some _ =>
          if s.preserveEvents then
            { event with targetTime := event.initialTime + event.offset }
          else
            { event with offset := max 0 (event.targetTime - event.initialTime) }
        | none => event
      let lookup := s.timeEventLookup.set name event
      { s with
          timeEventLookup := lookup
          notifications := s.notifications ++ [lookup.values] }
    | some ev =>
      if ev.initialTime ≠ initialTime then
        let event := { ev with initialTime := initialTime }
        let event :=
          if s.preserveEvents then
            { event with targetTime := event.initialTime + event.offset }
          else
            { event with offset := max 0 (event.targetTime - event.initialTime) }
        let lookup := s.timeEventLookup.set name event
        { s with
            timeEventLookup := lookup
            storedEventLookup := s.storedEventLookup.set name event
            notifications := s.notifications ++ [lookup.values] }
      else s
  match s'.timeEventLookup.get name with
  | some ev => (s', s.firstFrame + stf (ev.initialTime + ev.offset))
  | none => (s', s.firstFrame)

/-- `Scene.setFrameEvent(name, offset, preserve = true)`. -/
def setFrameEvent (s : SceneModel) (name : String) (offset : ℚ)
    (preserve : Bool := true) : SceneModel :=
  match s.timeEventLookup.get name with
  | none => s
  | some ev =>
    if ev.offset = offset then s
    else
      let event := { ev with targetTime := ev.initialTime + offset, offset := offset }
      let lookup := s.timeEventLookup.set name event
      { s with
          cached := false
          preserveEvents := preserve
          timeEventLookup := lookup
          storedEventLookup := s.storedEventLookup.set name event
          notifications := s.notifications ++ [lookup.values] }

/-- `Scene.reload()` (the runner-factory swap is irrelevant to the ledger):
clears `cached`, merges live events into the durable store with object spread,
clears the live events, and dispatches an empty event list. -/
def reload (s : SceneModel) : SceneModel :=
  { s with
      cached := false
      storedEventLookup := EventMap.merge s.storedEventLookup s.timeEventLookup
      timeEventLookup := []
      notifications := s.notifications ++ [[]] }

/-- `Scene.markAsCached()`: sets `cached`, clears `preserveEvents`, and writes
the durable event map to the store under the scene's storage key. -/
def markAsCached (s : SceneModel) (storage : Storage) : SceneModel × Storage :=
  ({ s with cached := true, preserveEvents := false },
    storage.set s.storageKey s.storedEventLookup)

/-- Invariant of every live event the code constructs: either its offset was
recomputed from its target time (non-preserve paths), or its target time was
recomputed from its offset (preserve paths and `setFrameEvent`). -/
def EventInv (e : TimeEvent) : Prop :=
  e.offset = max 0 (e.targetTime - e.initialTime) ∨
    e.targetTime = e.initialTime + e.offset

/-- Every event in the live ledger satisfies `EventInv`. -/
def LiveInv (s : SceneModel) : Prop := ∀ p ∈ s.timeEventLookup, EventInv p.2

/-- Nodup keys of the live ledger, preserved by every operation. -/
def LiveKeysNodup (s : SceneModel) : Prop := s.timeEventLookup.keys.Nodup

/-- Modelled from the spec: `Project.framesToSeconds` (the owning project's
frame-rate conversion, whose source is not in this tree) at 30 fps — "pure
conversion between frame indices and seconds given a fixed frame rate". -/
def framesToSeconds30 (frames : ℤ) : ℚ := frames / 30

/-- Modelled from the spec: `Project.secondsToFrames` at 30 fps — the scenario
"0 + 1.0s × 30fps" maps 1.0 s to frame 30; fractional seconds round down to a
whole frame. -/
def secondsToFrames30 (seconds : ℚ) : ℤ := ⌊seconds * 30⌋

/-- A concrete scene used to witness C3: one live event `"in"` with offset
0, a set `cached` flag, and empty durable store. -/
def c3Scene : SceneModel :=
  { storageKey := "scene-project-scene", firstFrame := 0, duration := 30
    frame := 0, timeEventLookup := [("in", ⟨"in", 0, 0, 0⟩)]
    storedEventLookup := [], cached := true, preserveEvents := false
    notifications := [] }

/-- A concrete scene used to witness C2: one live event `"in"` with
offset 1 and target time 1 at initial time 0, preserve mode off. -/
def c2Scene : SceneModel :=
  { storageKey := "scene-project-scene", firstFrame := 0, duration := 30
    frame := 0, timeEventLookup := [("in", ⟨"in", 0, 1, 1⟩)]
    storedEventLookup := [], cached := false, preserveEvents := false
    notifications := [] }

/-- A concrete scene used to witness C5: one durable event `"in"`. -/
def c5Scene : SceneModel :=
  { storageKey := "scene-project-scene", firstFrame := 0, duration := 30
    frame := 0, timeEventLookup := [("in", ⟨"in", 0, 1, 1⟩)]
    storedEventLookup := [("in", ⟨"in", 0, 1, 1⟩)], cached := false
    preserveEvents := true, notifications := [] }

/-- Every entry of a JS-object model is indexed by the name of the event it
holds. -/
def NamesConsistent (m : EventMap) : Prop := ∀ p ∈ m, p.2.name = p.1

/-- Well-formedness of a scene's two ledgers: no duplicate keys, and every
entry indexed by its event's name. Holds in every reachable state. -/
def WF (s : SceneModel) : Prop :=
  s.timeEventLookup.keys.Nodup ∧ s.storedEventLookup.keys.Nodup ∧
  NamesConsistent s.timeEventLookup ∧ NamesConsistent s.storedEventLookup

end Scene

/-- Modelled from the spec: the classification `Scene.next` applies to each
value produced by `runner.next()` (the `threads` wrapper and `isPromise` live
in the `threading` module, source not in this tree): a settled awaitable
carrying a value, a truthy value that is neither an awaitable nor a
recognised token, a falsy yield (the synchronisation point ending the step),
or generator completion (`done`). Values are drawn from ℕ as an opaque
universe. -/
inductive RunnerOutput where
  | promiseY (v : ℕ)
  | invalidY (v : ℕ)
  | pause
  | finish
deriving DecidableEq, Repr

namespace RunnerOutput

/-- JS truthiness of `result.value` as `Scene.next`'s loop condition sees
it: settled awaitables and invalid values are truthy, a falsy yield and
completion are not. -/
def truthy : RunnerOutput → Bool
  | promiseY _ => true
  | invalidY _ => true
  | pause => false
  | finish => false

end RunnerOutput

/-- The warning `console.warn('Invalid value: ', result.value)` extracts, if
any, from one runner output. -/
def warnOf : RunnerOutput → Option ℕ
  | .invalidY v => some v
  | _ => none

/-- The value passed back into `runner.next(...)` for one consumed truthy
output: a settled awaitable resumes with its value, an invalid value resumes
with no value. -/
def resumeOf : RunnerOutput → Option ℕ
  | .promiseY v => some v
  | _ => none

/-- The observable outcome of one `Scene.next` step: warnings logged, the
resume inputs fed back to the runner, whether `result.done` finished the
scene, and the unconsumed rest of the runner's script. -/
structure NextResult where
  warnings : List ℕ
  resumes : List (Option ℕ)
  finished : Bool
  rest : List RunnerOutput
deriving DecidableEq, Repr

/-- `Scene.next`: drives the runner while `result.value` is truthy — a
settled awaitable resumes with its value, any other truthy value logs a
warning and resumes with no value — until a falsy yield ends the step or the
runner completes. The runner is modelled as the script of values its
successive `next()` calls produce; an exhausted script reports completion. -/
def sceneNext : List RunnerOutput → NextResult
  | [] => ⟨[], [], true, []⟩
  | .promiseY v :: rest =>
    let r := sceneNext rest
    ⟨r.warnings, some v :: r.resumes, r.finished, r.rest⟩
  | .invalidY v :: rest =>
    let r := sceneNext rest
    ⟨v :: r.warnings, none :: r.resumes, r.finished, r.rest⟩
  | .pause :: rest => ⟨[], [], false, rest⟩
  | .finish :: rest => ⟨[], [], true, rest⟩

/-- The `while (this.wasDirty() && limit > 0)` loop of `Scene.updateLayout`,
with the dirty signal (`wasDirty()`, a collaborator contract per §6) modelled
as the stream of its successive return values, indexed from `idx`. Returns
the number of extra layout passes performed and the final value of `limit`. -/
def layoutLoop (dirty : ℕ → Bool) (idx : ℕ) : ℕ → ℕ × ℕ
  | 0 => (0, 0)
  | l + 1 =>
    if dirty idx then
      let r := layoutLoop dirty (idx + 1) l
      (r.1 + 1, r.2)
    else (0, l + 1)

/-- `Scene.updateLayout()`: one initial layout pass, one probe of the dirty
signal whose value is returned, then the bounded retry loop with
`limit = 10`; a warning is logged when the loop left `limit` at 0. Result:
(extra passes beyond the initial one, warning logged, returned value). -/
def updateLayout (dirty : ℕ → Bool) : ℕ × Bool × Bool :=
  let result := dirty 0
  let r := layoutLoop dirty 1 10
  (r.1, r.2 == 0, result)

/-- A 2-D size (`Vector2` from the types module; `exactlyEquals` is
component-wise equality). -/
structure V2 where
  w : ℚ
  h : ℚ
deriving DecidableEq, Repr

/-- Modelled from the spec: the Motion-Blur Accumulator (`MoblurRenderer`,
source not in this tree) as an allocation identity plus the state its
`resize`/`setSamples` methods maintain; the methods update the fields of the
same instance, a constructor call allocates a fresh identity. -/
structure Moblur where
  id : ℕ
  size : V2
  samples : ℚ
deriving DecidableEq, Repr

/-- The `Stage` fields relevant to `configure` and `render`. `nextMoblurId`
is the allocation counter giving accumulator instances their identity. -/
structure StageState where
  background : Option String
  resolutionScale : ℚ
  colorSpace : String
  size : V2
  motionBlurSamples : ℚ
  moblurRenderer : Option Moblur
  nextMoblurId : ℕ
deriving DecidableEq, Repr

/-- `Partial<StageSettings>`: absent fields default to the current state.
The background is a colour already serialised to a string, or `none` for
null, matching the normalisation `configure` applies. -/
structure StageOptions where
  colorSpace : Option String := none
  size : Option V2 := none
  resolutionScale : Option ℚ := none
  motionBlur : Option ℚ := none
  background : Option (Option String) := none
deriving DecidableEq, Repr

/-- The first step of `configure`: on a colour-space change, store it (the
attendant context re-creation acts on objects outside this model). -/
def applyColorSpace (s : StageState) (colorSpace : String) : StageState :=
  if colorSpace ≠ s.colorSpace then { s with colorSpace := colorSpace } else s

/-- The second step of `configure`: on a size or scale change, store both
(the attendant canvas resizing acts on objects outside this model). -/
def applySize (s : StageState) (size : V2) (resolutionScale : ℚ) : StageState :=
  if size ≠ s.size ∨ resolutionScale ≠ s.resolutionScale then
    { s with resolutionScale := resolutionScale, size := size }
  else s

/-- `Stage.configure(options)`, with the capability probe
`MoblurRenderer.checkSupport()` supplied as a boolean. The accumulator is
dropped when the sample count is ≤ 1 or support is missing, constructed only
when absent, and — whenever it is present at the end of the call — resized
to the current size and given the new sample count. -/
def configure (support : Bool) (s : StageState) (o : StageOptions) : StageState :=
  let colorSpace := o.colorSpace.getD s.colorSpace
  let size := o.size.getD s.size
  let resolutionScale := o.resolutionScale.getD s.resolutionScale
  let motionBlur := o.motionBlur.getD s.motionBlurSamples
  let background := o.background.getD s.background
  let s1 := applyColorSpace s colorSpace
  let s2 := applySize s1 size resolutionScale
  let s3 :=
    if motionBlur ≤ 1 ∨ support = false then
      { s2 with moblurRenderer := none }
    else
      match s2.moblurRenderer with
      | none =>
        { s2 with
            moblurRenderer := some ⟨s2.nextMoblurId, s2.size, motionBlur⟩
            nextMoblurId := s2.nextMoblurId + 1 }
      | some _ => s2
  let s4 := { s3 with background := background }
  match s4.moblurRenderer with
  | some r =>
    { s4 with moblurRenderer := some { r with size := s4.size, samples := motionBlur } }
  | none => s4

/-- One drawing operation `Stage.render` performs on the final surface. -/
inductive RenderOp where
  | clearRect
  | fillBackground (color : String)
  | drawPrevious
  | drawCurrent
deriving DecidableEq, Repr

/-- The sequence of operations `Stage.render(currentScene, previousScene)`
performs on the final surface: clear, background fill if configured, then
the previous and current scene buffers ordered by `previousOnTop` — which is
read from the current scene's flag only when a previous scene is supplied
and is `false` otherwise. -/
def renderFinalOps (background : Option String) (currentPreviousOnTop : Bool)
    (hasPrevious : Bool) : List RenderOp :=
  let previousOnTop := if hasPrevious then currentPreviousOnTop else false
  [RenderOp.clearRect] ++
    (match background with
     | some c => [RenderOp.fillBackground c]
     | none => []) ++
    (if hasPrevious && !previousOnTop then [RenderOp.drawPrevious] else []) ++
    [RenderOp.drawCurrent] ++
    (if previousOnTop then [RenderOp.drawPrevious] else [])

namespace EventMap

@[simp] theorem get_nil (k : String) : get [] k = none := rfl

@[simp] theorem get_cons (p : String × TimeEvent) (rest : EventMap) (k : String) :
    get (p :: rest) k = if p.1 = k then some p.2 else get rest k := rfl

@[simp] theorem set_nil (k : String) (v : TimeEvent) : set [] k v = [(k, v)] := rfl

@[simp] theorem set_cons (p : String × TimeEvent) (rest : EventMap) (k : String)
    (v : TimeEvent) :
    set (p :: rest) k v =
      if p.1 = k then (k, v) :: rest else p :: set rest k v := rfl

@[simp] theorem keys_nil : keys [] = [] := rfl

@[simp] theorem keys_cons (p : String × TimeEvent) (rest : EventMap) :
    keys (p :: rest) = p.1 :: keys rest := rfl

@[simp] theorem values_nil : values [] = [] := rfl

@[simp] theorem values_cons (p : String × TimeEvent) (rest : EventMap) :
    values (p :: rest) = p.2 :: values rest := rfl

@[simp] theorem merge_nil_overlay (base : EventMap) : merge base [] = base := rfl

@[simp] theorem merge_cons_overlay (base : EventMap) (p : String × TimeEvent)
    (rest : EventMap) : merge base (p :: rest) = merge (base.set p.1 p.2) rest := rfl

@[simp] theorem get_set_self (m : EventMap) (k : String) (v : TimeEvent) :
    (m.set k v).get k = some v := by
  induction m with
  | nil => simp
  | cons p rest ih =>
    by_cases h : p.1 = k <;> simp [h, ih]

theorem get_set_ne (m : EventMap) (k k' : String) (v : TimeEvent)
    (h : k ≠ k') : (m.set k v).get k' = m.get k' := by
  induction m with
  | nil => simp [h]
  | cons p rest ih =>
    by_cases hp : p.1 = k
    · subst hp
      simp [h]
    · simp [hp, ih]

theorem mem_of_get_eq_some {m : EventMap} {k : String} {v : TimeEvent}
    (h : m.get k = some v) : (k, v) ∈ m := by
  induction m with
  | nil => simp at h
  | cons p rest ih =>
    cases p with
    | mk k' v' =>
      by_cases hp : k' = k
      · subst hp
        simp at h
        subst h
        exact List.mem_cons_self _ _
      · rw [get_cons, if_neg hp] at h
        exact List.mem_cons_of_mem _ (ih h)

theorem get_eq_none_of_not_mem {m : EventMap} {k : String}
    (h : k ∉ m.keys) : m.get k = none := by
  induction m with
  | nil => rfl
  | cons p rest ih =>
    simp at h
    rw [get_cons, if_neg (fun he => h.1 he.symm), ih h.2]

theorem mem_set {m : EventMap} {k : String} {v : TimeEvent} {p : String × TimeEvent}
    (h : p ∈ m.set k v) : p = (k, v) ∨ p ∈ m := by
  induction m with
  | nil => exact Or.inl (by simpa using h)
  | cons q rest ih =>
    by_cases hq : q.1 = k
    · rw [set_cons, if_pos hq] at h
      rcases List.mem_cons.mp h with h | h
      · exact Or.inl h
      · exact Or.inr (List.mem_cons_of_mem _ h)
    · rw [set_cons, if_neg hq] at h
      rcases List.mem_cons.mp h with h | h
      · exact Or.inr (h ▸ List.mem_cons_self _ _)
      · rcases ih h with h | h
        · exact Or.inl h
        · exact Or.inr (List.mem_cons_of_mem _ h)

theorem keys_set (m : EventMap) (k : String) (v : TimeEvent) :
    (m.set k v).keys = if k ∈ m.keys then m.keys else m.keys ++ [k] := by
  induction m with
  | nil => simp
  | cons p rest ih =>
    by_cases hp : p.1 = k
    · subst hp
      simp
    · simp only [set_cons, if_neg hp, keys_cons, ih]
      by_cases hk : k ∈ keys rest
      · simp [hk]
      · have hne : ¬k = p.1 := fun h => hp h.symm
        have hmem : k ∉ p.1 :: keys rest := by simp [hk, hne]
        simp [hk, hmem]

theorem keys_nodup_set {m : EventMap} (k : String) (v : TimeEvent)
    (h : m.keys.Nodup) : (m.set k v).keys.Nodup := by
  rw [keys_set]
  by_cases hk : k ∈ m.keys
  · simpa [hk]
  · simp only [hk, if_false]
    simpa [List.nodup_append] using ⟨h, fun he => hk he⟩

theorem set_eq_append_of_not_mem {m : EventMap} {k : String} (v : TimeEvent)
    (h : k ∉ m.keys) : m.set k v = m ++ [(k, v)] := by
  induction m with
  | nil => simp
  | cons p rest ih =>
    simp at h
    rw [set_cons, if_neg (fun he => h.1 he.symm), ih h.2]
    rfl

/-- Entries untouched by `merge` when the key is absent from the overlay. -/
theorem merge_get_of_not_mem (overlay base : EventMap) (k : String)
    (h : k ∉ overlay.keys) : (merge base overlay).get k = base.get k := by
  induction overlay generalizing base with
  | nil => rfl
  | cons p rest ih =>
    simp at h
    have := ih (base.set p.1 p.2) h.2
    rw [merge_cons_overlay, this, get_set_ne _ _ _ _ (fun he => h.1 he.symm)]

/-- Looking up an overlay key after `merge` returns the overlay value,
provided the overlay has no duplicate keys. -/
theorem merge_get_of_get (overlay base : EventMap) (k : String) (v : TimeEvent)
    (hnd : overlay.keys.Nodup) (h : overlay.get k = some v) :
    (merge base overlay).get k = some v := by
  induction overlay generalizing base with
  | nil => simp at h
  | cons p rest ih =>
    simp at hnd
    by_cases hp : p.1 = k
    · simp [hp] at h
      subst hp
      rw [merge_cons_overlay, merge_get_of_not_mem rest _ p.1 hnd.1, ← h]
      exact get_set_self base p.1 p.2
    · simp [hp] at h
      rw [merge_cons_overlay]
      exact ih (base.set p.1 p.2) hnd.2 h

end EventMap

namespace Storage

@[simp] theorem store_get_set_self (st : Storage) (k : String) (v : EventMap) :
    (st.set k v).get k = some v := by
  induction st with
  | nil => simp [set, get]
  | cons p rest ih =>
    by_cases h : p.1 = k <;> simp [set, get, h, ih]

end Storage

namespace Scene

/-- Unfolding of `getFrameEvent` when the name is unseen and the durable store
has no record: a fresh event with zero offset is created and dispatched. -/
theorem getFrameEvent_none_none (fts : ℤ → ℚ) (stf : ℚ → ℤ) (s : SceneModel)
    (name : String) (h1 : s.timeEventLookup.get name = none)
    (h2 : s.storedEventLookup.get name = none) :
    getFrameEvent fts stf s name =
      (let iT := fts (s.frame - s.firstFrame)
       let event : TimeEvent :=
         { name := name, initialTime := iT, targetTime := iT, offset := 0 }
       let lookup := s.timeEventLookup.set name event
       ({ s with
            timeEventLookup := lookup
            notifications := s.notifications ++ [lookup.values] },
        s.firstFrame + stf (iT + 0))) := by
  simp [getFrameEvent, h1, h2]

/-- Unfolding of `getFrameEvent` when the name is unseen but the durable store
holds a record: the stored target/offset seed the new event, and with preserve
mode off the offset is recomputed as `max 0 (targetTime - initialTime)`. -/
theorem getFrameEvent_none_some_of_not_preserve (fts : ℤ → ℚ) (stf : ℚ → ℤ)
    (s : SceneModel) (name : String) (sev : TimeEvent)
    (h1 : s.timeEventLookup.get name = none)
    (h2 : s.storedEventLookup.get name = some sev)
    (h3 : s.preserveEvents = false) :
    getFrameEvent fts stf s name =
      (let iT := fts (s.frame - s.firstFrame)
       let event : TimeEvent :=
         { name := name, initialTime := iT, targetTime := sev.targetTime
           offset := max 0 (sev.targetTime - iT) }
       let lookup := s.timeEventLookup.set name event
       ({ s with
            timeEventLookup := lookup
            notifications := s.notifications ++ [lookup.values] },
        s.firstFrame + stf (iT + max 0 (sev.targetTime - iT)))) := by
  simp [getFrameEvent, h1, h2, h3]

/-- Unfolding of `getFrameEvent` when the name is unseen, the durable store
holds a record and preserve mode is on: the target time is recomputed as
`initialTime + offset`. -/
theorem getFrameEvent_none_some_of_preserve (fts : ℤ → ℚ) (stf : ℚ → ℤ)
    (s : SceneModel) (name : String) (sev : TimeEvent)
    (h1 : s.timeEventLookup.get name = none)
    (h2 : s.storedEventLookup.get name = some sev)
    (h3 : s.preserveEvents = true) :
    getFrameEvent fts stf s name =
      (let iT := fts (s.frame - s.firstFrame)
       let event : TimeEvent :=
         { name := name, initialTime := iT, targetTime := iT + sev.offset
           offset := sev.offset }
       let lookup := s.timeEventLookup.set name event
       ({ s with
            timeEventLookup := lookup
            notifications := s.notifications ++ [lookup.values] },
        s.firstFrame + stf (iT + sev.offset))) := by
  simp [getFrameEvent, h1, h2, h3]

/-- Unfolding of `getFrameEvent` when the live event exists with an unchanged
initial time: the call is a pure read. -/
theorem getFrameEvent_some_eq (fts : ℤ → ℚ) (stf : ℚ → ℤ) (s : SceneModel)
    (name : String) (ev : TimeEvent)
    (h1 : s.timeEventLookup.get name = some ev)
    (h2 : ev.initialTime = fts (s.frame - s.firstFrame)) :
    getFrameEvent fts stf s name =
      (s, s.firstFrame + stf (ev.initialTime + ev.offset)) := by
  simp [getFrameEvent, h1, h2]

/-- Unfolding of `getFrameEvent` when the live event exists but its initial
time drifted, preserve mode off: offset recomputed, both ledgers updated. -/
theorem getFrameEvent_some_ne_of_not_preserve (fts : ℤ → ℚ) (stf : ℚ → ℤ)
    (s : SceneModel) (name : String) (ev : TimeEvent)
    (h1 : s.timeEventLookup.get name = some ev)
    (h2 : ev.initialTime ≠ fts (s.frame - s.firstFrame))
    (h3 : s.preserveEvents = false) :
    getFrameEvent fts stf s name =
      (let iT := fts (s.frame - s.firstFrame)
       let event : TimeEvent :=
         { ev with initialTime := iT, offset := max 0 (ev.targetTime - iT) }
       let lookup := s.timeEventLookup.set name event
       ({ s with
            timeEventLookup := lookup
            storedEventLookup := s.storedEventLookup.set name event
            notifications := s.notifications ++ [lookup.values] },
        s.firstFrame + stf (iT + max 0 (ev.targetTime - iT)))) := by
  simp [getFrameEvent, h1, h2, h3]

/-- Unfolding of `getFrameEvent` when the live event exists but its initial
time drifted, preserve mode on: target time recomputed, both ledgers
updated. -/
theorem getFrameEvent_some_ne_of_preserve (fts : ℤ → ℚ) (stf : ℚ → ℤ)
    (s : SceneModel) (name : String) (ev : TimeEvent)
    (h1 : s.timeEventLookup.get name = some ev)
    (h2 : ev.initialTime ≠ fts (s.frame - s.firstFrame))
    (h3 : s.preserveEvents = true) :
    getFrameEvent fts stf s name =
      (let iT := fts (s.frame - s.firstFrame)
       let event : TimeEvent :=
         { ev with initialTime := iT, targetTime := iT + ev.offset }
       let lookup := s.timeEventLookup.set name event
       ({ s with
            timeEventLookup := lookup
            storedEventLookup := s.storedEventLookup.set name event
            notifications := s.notifications ++ [lookup.values] },
        s.firstFrame + stf (iT + ev.offset))) := by
  simp [getFrameEvent, h1, h2, h3]

/-- After any `getFrameEvent`, the live ledger holds the queried name with the
initial time computed from the current frame, and the returned frame number is
`firstFrame + secondsToFrames(initialTime + offset)` of that record; frame and
firstFrame are untouched. -/
theorem getFrameEvent_post (fts : ℤ → ℚ) (stf : ℚ → ℤ) (s : SceneModel)
    (name : String) :
    ∃ ev : TimeEvent,
      (getFrameEvent fts stf s name).1.timeEventLookup.get name = some ev ∧
      ev.initialTime = fts (s.frame - s.firstFrame) ∧
      (getFrameEvent fts stf s name).2 =
        s.firstFrame + stf (ev.initialTime + ev.offset) ∧
      (getFrameEvent fts stf s name).1.frame = s.frame ∧
      (getFrameEvent fts stf s name).1.firstFrame = s.firstFrame := by
  rcases h1 : s.timeEventLookup.get name with _ | ev
  · rcases h2 : s.storedEventLookup.get name with _ | sev
    · rw [getFrameEvent_none_none fts stf s name h1 h2]
      exact ⟨{ name := name, initialTime := fts (s.frame - s.firstFrame)
               targetTime := fts (s.frame - s.firstFrame), offset := 0 },
        by simp, rfl, rfl, rfl, rfl⟩
    · rcases h3 : s.preserveEvents with _ | _
      · rw [getFrameEvent_none_some_of_not_preserve fts stf s name sev h1 h2 h3]
        exact ⟨{ name := name, initialTime := fts (s.frame - s.firstFrame)
                 targetTime := sev.targetTime
                 offset := max 0 (sev.targetTime - fts (s.frame - s.firstFrame)) },
          by simp, rfl, rfl, rfl, rfl⟩
      · rw [getFrameEvent_none_some_of_preserve fts stf s name sev h1 h2 h3]
        exact ⟨{ name := name, initialTime := fts (s.frame - s.firstFrame)
                 targetTime := fts (s.frame - s.firstFrame) + sev.offset
                 offset := sev.offset },
          by simp, rfl, rfl, rfl, rfl⟩
  · by_cases h2 : ev.initialTime = fts (s.frame - s.firstFrame)
    · rw [getFrameEvent_some_eq fts stf s name ev h1 h2]
      exact ⟨ev, h1, h2, rfl, rfl, rfl⟩
    · rcases h3 : s.preserveEvents with _ | _
      · rw [getFrameEvent_some_ne_of_not_preserve fts stf s name ev h1 h2 h3]
        exact ⟨{ ev with
                 initialTime := fts (s.frame - s.firstFrame),
                 offset := max 0 (ev.targetTime - fts (s.frame - s.firstFrame)) },
          by simp, rfl, rfl, rfl, rfl⟩
      · rw [getFrameEvent_some_ne_of_preserve fts stf s name ev h1 h2 h3]
        exact ⟨{ ev with
                 initialTime := fts (s.frame - s.firstFrame),
                 targetTime := fts (s.frame - s.firstFrame) + ev.offset },
          by simp, rfl, rfl, rfl, rfl⟩

theorem liveInv_construct (projectName sceneName : String) (frame : ℤ)
    (storage : Storage) : LiveInv (construct projectName sceneName frame storage) := by
  intro p hp
  simp [construct] at hp

theorem liveInv_set {s : SceneModel} {name : String} {ev : TimeEvent}
    (h : LiveInv s) (hev : EventInv ev) :
    ∀ p ∈ s.timeEventLookup.set name ev, EventInv p.2 := by
  intro p hp
  rcases EventMap.mem_set hp with rfl | hp
  · exact hev
  · exact h p hp

theorem liveInv_getFrameEvent (fts : ℤ → ℚ) (stf : ℚ → ℤ) {s : SceneModel}
    (name : String) (h : LiveInv s) :
    LiveInv (getFrameEvent fts stf s name).1 := by
  rcases h1 : s.timeEventLookup.get name with _ | ev
  · rcases h2 : s.storedEventLookup.get name with _ | sev
    · rw [getFrameEvent_none_none fts stf s name h1 h2]
      exact liveInv_set h (Or.inr (by simp [EventInv]))
    · rcases h3 : s.preserveEvents with _ | _
      · rw [getFrameEvent_none_some_of_not_preserve fts stf s name sev h1 h2 h3]
        exact liveInv_set h (Or.inl rfl)
      · rw [getFrameEvent_none_some_of_preserve fts stf s name sev h1 h2 h3]
        exact liveInv_set h (Or.inr rfl)
  · by_cases h2 : ev.initialTime = fts (s.frame - s.firstFrame)
    · rw [getFrameEvent_some_eq fts stf s name ev h1 h2]
      exact h
    · rcases h3 : s.preserveEvents with _ | _
      · rw [getFrameEvent_some_ne_of_not_preserve fts stf s name ev h1 h2 h3]
        exact liveInv_set h (Or.inl rfl)
      · rw [getFrameEvent_some_ne_of_preserve fts stf s name ev h1 h2 h3]
        exact liveInv_set h (Or.inr rfl)

theorem liveInv_setFrameEvent {s : SceneModel} (name : String) (offset : ℚ)
    (preserve : Bool) (h : LiveInv s) :
    LiveInv (setFrameEvent s name offset preserve) := by
  rcases h1 : s.timeEventLookup.get name with _ | ev
  · simpa [setFrameEvent, h1] using h
  · by_cases h2 : ev.offset = offset
    · simpa [setFrameEvent, h1, h2] using h
    · intro p hp
      simp only [setFrameEvent, h1, h2, if_neg] at hp
      exact liveInv_set h (Or.inr rfl) p hp

theorem liveInv_reload {s : SceneModel} (_h : LiveInv s) : LiveInv (reload s) := by
  intro p hp
  simp [reload] at hp

theorem liveInv_markAsCached {s : SceneModel} (storage : Storage)
    (h : LiveInv s) : LiveInv (markAsCached s storage).1 := by
  intro p hp
  exact h p hp

theorem liveKeysNodup_getFrameEvent (fts : ℤ → ℚ) (stf : ℚ → ℤ)
    {s : SceneModel} (name : String) (h : LiveKeysNodup s) :
    LiveKeysNodup (getFrameEvent fts stf s name).1 := by
  rcases h1 : s.timeEventLookup.get name with _ | ev
  · rcases h2 : s.storedEventLookup.get name with _ | sev
    · rw [getFrameEvent_none_none fts stf s name h1 h2]
      exact EventMap.keys_nodup_set _ _ h
    · rcases h3 : s.preserveEvents with _ | _
      · rw [getFrameEvent_none_some_of_not_preserve fts stf s name sev h1 h2 h3]
        exact EventMap.keys_nodup_set _ _ h
      · rw [getFrameEvent_none_some_of_preserve fts stf s name sev h1 h2 h3]
        exact EventMap.keys_nodup_set _ _ h
  · by_cases h2 : ev.initialTime = fts (s.frame - s.firstFrame)
    · rw [getFrameEvent_some_eq fts stf s name ev h1 h2]
      exact h
    · rcases h3 : s.preserveEvents with _ | _
      · rw [getFrameEvent_some_ne_of_not_preserve fts stf s name ev h1 h2 h3]
        exact EventMap.keys_nodup_set _ _ h
      · rw [getFrameEvent_some_ne_of_preserve fts stf s name ev h1 h2 h3]
        exact EventMap.keys_nodup_set _ _ h

/-- C1: every `getFrameEvent(name)` call returns
`firstFrame + secondsToFrames(initialTime + offset)` of the (possibly
updated) event record for `name`; and in the 30 fps scenario with
`firstFrame = 0` and `duration = 30`, a first `getFrameEvent "in"` at frame 0
returns frame 0, while after `setFrameEvent "in" 1.0` a second
`getFrameEvent "in"` at frame 0 returns frame 30. -/
theorem claim_C1_getFrameEvent_return (fts : ℤ → ℚ) (stf : ℚ → ℤ)
    (s : SceneModel) (name : String) :
    (∃ ev : TimeEvent,
      (getFrameEvent fts stf s name).1.timeEventLookup.get name = some ev ∧
      (getFrameEvent fts stf s name).2 =
        s.firstFrame + stf (ev.initialTime + ev.offset)) ∧
    ((getFrameEvent framesToSeconds30 secondsToFrames30
        { construct "project" "scene" 0 [] with duration := 30 } "in").2 = 0 ∧
      (getFrameEvent framesToSeconds30 secondsToFrames30
        (setFrameEvent
          (getFrameEvent framesToSeconds30 secondsToFrames30
            { construct "project" "scene" 0 [] with duration := 30 } "in").1
          "in" 1 true) "in").2 = 30) := by
  constructor
  · obtain ⟨ev, hget, _, hval, _, _⟩ := getFrameEvent_post fts stf s name
    exact ⟨ev, hget, hval⟩
  · constructor
    · norm_num [construct, mkStorageKey, Storage.get, getFrameEvent,
        EventMap.get, EventMap.set, EventMap.values, framesToSeconds30,
        secondsToFrames30]
    · norm_num [construct, mkStorageKey, Storage.get, getFrameEvent,
        setFrameEvent, EventMap.get, EventMap.set, EventMap.values,
        framesToSeconds30, secondsToFrames30]

/-- C10: a second `getFrameEvent` at an unchanged project frame is a pure
read: it returns the same frame number and leaves the whole scene state —
both ledgers, flags and the notification log — unchanged. -/
theorem claim_C10_getFrameEvent_repeat_pure (fts : ℤ → ℚ) (stf : ℚ → ℤ)
    (s : SceneModel) (name : String) :
    getFrameEvent fts stf (getFrameEvent fts stf s name).1 name =
      getFrameEvent fts stf s name := by
  obtain ⟨ev, hget, hit, hval, hframe, hfirst⟩ := getFrameEvent_post fts stf s name
  rw [getFrameEvent_some_eq fts stf _ name ev hget (by rw [hframe, hfirst, hit]),
    hfirst, ← hval]

/-- C3: `setFrameEvent` on a live event whose offset differs clears the
cached flag, sets the preserve flag to the argument, rewrites both the live
and durable records to `targetTime = initialTime + offset` with the new
offset, and appends one notification carrying the full live event list. -/
theorem claim_C3_setFrameEvent_updates (s : SceneModel) (name : String)
    (offset : ℚ) (preserve : Bool) (ev : TimeEvent)
    (h1 : s.timeEventLookup.get name = some ev) (h2 : ev.offset ≠ offset) :
    (setFrameEvent s name offset preserve).cached = false ∧
    (setFrameEvent s name offset preserve).preserveEvents = preserve ∧
    (setFrameEvent s name offset preserve).timeEventLookup =
      s.timeEventLookup.set name
        { ev with targetTime := ev.initialTime + offset, offset := offset } ∧
    (setFrameEvent s name offset preserve).storedEventLookup =
      s.storedEventLookup.set name
        { ev with targetTime := ev.initialTime + offset, offset := offset } ∧
    (setFrameEvent s name offset preserve).notifications =
      s.notifications ++
        [(setFrameEvent s name offset preserve).timeEventLookup.values] := by
  simp [setFrameEvent, h1, h2]

/-- Witness for C3 at `c3Scene`: the live event `"in"` is updated from
offset 0 to offset 1. -/
theorem claim_C3_setFrameEvent_updates_witness :
    (c3Scene.timeEventLookup.get "in" = some ⟨"in", 0, 0, 0⟩) ∧
    ((⟨"in", 0, 0, 0⟩ : TimeEvent).offset ≠ 1) ∧
    ((setFrameEvent c3Scene "in" 1 true).cached = false ∧
      (setFrameEvent c3Scene "in" 1 true).preserveEvents = true ∧
      (setFrameEvent c3Scene "in" 1 true).timeEventLookup =
        c3Scene.timeEventLookup.set "in"
          { (⟨"in", 0, 0, 0⟩ : TimeEvent) with
            targetTime := (⟨"in", 0, 0, 0⟩ : TimeEvent).initialTime + 1,
            offset := 1 } ∧
      (setFrameEvent c3Scene "in" 1 true).storedEventLookup =
        c3Scene.storedEventLookup.set "in"
          { (⟨"in", 0, 0, 0⟩ : TimeEvent) with
            targetTime := (⟨"in", 0, 0, 0⟩ : TimeEvent).initialTime + 1,
            offset := 1 } ∧
      (setFrameEvent c3Scene "in" 1 true).notifications =
        c3Scene.notifications ++
          [(setFrameEvent c3Scene "in" 1 true).timeEventLookup.values]) :=
  ⟨by simp [c3Scene, EventMap.get], by norm_num,
    claim_C3_setFrameEvent_updates c3Scene "in" 1 true ⟨"in", 0, 0, 0⟩
      (by simp [c3Scene, EventMap.get]) (by norm_num)⟩

/-- C4: `setFrameEvent` with an unknown name or an unchanged offset is a
no-op: the state — ledgers, cached flag, preserve flag, notifications — is
returned unchanged. -/
theorem claim_C4_setFrameEvent_noop (s : SceneModel) (name : String)
    (offset : ℚ) (preserve : Bool)
    (h : s.timeEventLookup.get name = none ∨
      ∃ ev, s.timeEventLookup.get name = some ev ∧ ev.offset = offset) :
    setFrameEvent s name offset preserve = s := by
  rcases h with h | ⟨ev, h, heq⟩
  · simp [setFrameEvent, h]
  · simp [setFrameEvent, h, heq]

/-- Witness for C4: unknown event name on a scene with an empty live ledger. -/
theorem claim_C4_setFrameEvent_noop_witness :
    (EventMap.get [] "in" = none ∨
      ∃ ev : TimeEvent, EventMap.get [] "in" = some ev ∧ ev.offset = 1) ∧
    setFrameEvent
      { storageKey := "scene-project-scene", firstFrame := 0, duration := 30
        frame := 0, timeEventLookup := [], storedEventLookup := []
        cached := true, preserveEvents := false, notifications := [] }
      "in" 1 true =
      { storageKey := "scene-project-scene", firstFrame := 0, duration := 30
        frame := 0, timeEventLookup := [], storedEventLookup := []
        cached := true, preserveEvents := false, notifications := [] } :=
  ⟨Or.inl rfl,
    claim_C4_setFrameEvent_noop _ "in" 1 true (Or.inl rfl)⟩

/-- C2: a live event with non-negative offset `o` round-trips through
`reload()`: a later `getFrameEvent` for the same name, at a frame yielding
the same initial time, with preserve mode off, rebuilds an event whose
offset is again `o`. The `LiveInv`/`LiveKeysNodup` hypotheses hold in every
reachable state (see the preservation lemmas above). -/
theorem claim_C2_offset_roundtrip_reload (fts : ℤ → ℚ) (stf : ℚ → ℤ)
    (s : SceneModel) (n : String) (ev : TimeEvent) (o : ℚ) (frameNew : ℤ)
    (hInv : LiveInv s) (hNodup : LiveKeysNodup s)
    (hget : s.timeEventLookup.get n = some ev)
    (hoff : ev.offset = o) (hpos : 0 ≤ o)
    (hpres : s.preserveEvents = false)
    (hsame : fts (frameNew - s.firstFrame) = ev.initialTime) :
    ∃ ev', (getFrameEvent fts stf { reload s with frame := frameNew }
        n).1.timeEventLookup.get n = some ev' ∧ ev'.offset = o := by
  have hstored : ({ reload s with frame := frameNew } :
      SceneModel).storedEventLookup.get n = some ev :=
    EventMap.merge_get_of_get _ _ _ _ hNodup hget
  have hlive : ({ reload s with frame := frameNew } :
      SceneModel).timeEventLookup.get n = none := rfl
  have hpres' : ({ reload s with frame := frameNew } :
      SceneModel).preserveEvents = false := hpres
  rw [getFrameEvent_none_some_of_not_preserve fts stf
    { reload s with frame := frameNew } n ev hlive hstored hpres']
  have hiT : fts (({ reload s with frame := frameNew } : SceneModel).frame -
      ({ reload s with frame := frameNew } : SceneModel).firstFrame) =
      ev.initialTime := hsame
  refine ⟨{ name := n
            initialTime := fts (({ reload s with frame := frameNew } :
              SceneModel).frame -
              ({ reload s with frame := frameNew } : SceneModel).firstFrame)
            targetTime := ev.targetTime
            offset := max 0 (ev.targetTime -
              fts (({ reload s with frame := frameNew } : SceneModel).frame -
                ({ reload s with frame := frameNew } : SceneModel).firstFrame)) },
    by simp, ?_⟩
  rw [hiT]
  have hEv : EventInv ev := hInv (n, ev) (EventMap.mem_of_get_eq_some hget)
  rcases hEv with hE | hE
  · rw [← hE]
    exact hoff
  · rw [hE, hoff]
    have hc : ev.initialTime + o - ev.initialTime = o := by ring
    rw [hc]
    exact max_eq_right hpos

/-- Witness for C2 at `c2Scene`: offset 1 survives `reload()` followed by
`getFrameEvent` at the same frame. -/
theorem claim_C2_offset_roundtrip_reload_witness :
    LiveInv c2Scene ∧ LiveKeysNodup c2Scene ∧
    c2Scene.timeEventLookup.get "in" = some ⟨"in", 0, 1, 1⟩ ∧
    (⟨"in", 0, 1, 1⟩ : TimeEvent).offset = 1 ∧ (0 : ℚ) ≤ 1 ∧
    c2Scene.preserveEvents = false ∧
    framesToSeconds30 (0 - c2Scene.firstFrame) =
      (⟨"in", 0, 1, 1⟩ : TimeEvent).initialTime ∧
    ∃ ev', (getFrameEvent framesToSeconds30 secondsToFrames30
        { reload c2Scene with frame := 0 } "in").1.timeEventLookup.get "in" =
        some ev' ∧ ev'.offset = 1 := by
  have hInv : LiveInv c2Scene := by
    intro p hp
    simp [c2Scene] at hp
    rw [hp]
    left
    norm_num
  have hsame : framesToSeconds30 (0 - c2Scene.firstFrame) =
      (⟨"in", 0, 1, 1⟩ : TimeEvent).initialTime := by
    norm_num [c2Scene, framesToSeconds30]
  refine ⟨hInv, by simp [LiveKeysNodup, c2Scene], by simp [c2Scene, EventMap.get],
    rfl, by norm_num, rfl, hsame, ?_⟩
  exact claim_C2_offset_roundtrip_reload framesToSeconds30 secondsToFrames30
    c2Scene "in" ⟨"in", 0, 1, 1⟩ 1 0 hInv (by simp [LiveKeysNodup, c2Scene])
    (by simp [c2Scene, EventMap.get]) rfl (by norm_num) rfl hsame

/-- The constructor's re-indexing of stored values, generalised over the
accumulator: on a well-formed map it reproduces the map. -/
theorem loadStored_go (m acc : EventMap) (hnd : acc.keys.Nodup)
    (hmd : m.keys.Nodup) (hdisj : ∀ k ∈ acc.keys, k ∉ m.keys)
    (hnames : ∀ p ∈ m, p.2.name = p.1) :
    m.values.foldl (fun a e => a.set e.name e) acc = acc ++ m := by
  induction m generalizing acc with
  | nil => simp [EventMap.values]
  | cons p rest ih =>
    obtain ⟨k, e⟩ := p
    have hname : e.name = k := hnames (k, e) (List.mem_cons_self _ _)
    have hknotacc : k ∉ acc.keys := fun hk => hdisj k hk (by simp)
    have hmd' : (EventMap.keys rest).Nodup := (List.nodup_cons.mp hmd).2
    have hknotrest : k ∉ EventMap.keys rest := (List.nodup_cons.mp hmd).1
    rw [EventMap.values_cons, List.foldl_cons]
    have hstep : acc.set e.name e = acc ++ [(k, e)] := by
      rw [hname]
      exact EventMap.set_eq_append_of_not_mem e hknotacc
    rw [hstep, ih (acc ++ [(k, e)]) ?_ hmd' ?_ ?_]
    · simp
    · have : EventMap.keys (acc ++ [(k, e)]) = acc.keys ++ [k] :=
        List.map_append _ _ _
      rw [this]
      simp [List.nodup_append, hnd, hknotacc]
    · intro k' hk'
      have : EventMap.keys (acc ++ [(k, e)]) = acc.keys ++ [k] :=
        List.map_append _ _ _
      rw [this] at hk'
      rcases List.mem_append.mp hk' with hk' | hk'
      · intro hmem
        exact hdisj k' hk' (List.mem_cons_of_mem _ hmem)
      · simp at hk'
        subst hk'
        exact hknotrest
    · intro q hq
      exact hnames q (List.mem_cons_of_mem _ hq)

/-- On a well-formed event map, re-indexing the values by name reproduces
the map: the constructor recovers exactly what was persisted. -/
theorem loadStored_values (m : EventMap) (hnd : m.keys.Nodup)
    (hnames : ∀ p ∈ m, p.2.name = p.1) : loadStored m.values = m := by
  have := loadStored_go m [] (by simp [EventMap.keys]) hnd
    (by intro k hk; simp [EventMap.keys] at hk) hnames
  simpa [loadStored] using this

/-- C5: after `markAsCached()`, the durable store is persisted under the key
`scene-{project}-{sceneName}`, a freshly constructed scene with the same
storage key recovers the identical durable TimeEvents, and the call sets the
cached flag and disables preserve mode. The two well-formedness hypotheses
hold in every reachable state (see the preservation lemmas below). -/
theorem claim_C5_markAsCached_persists (projectName sceneName : String)
    (frameNew : ℤ) (storage : Storage) (s : SceneModel)
    (hnd : s.storedEventLookup.keys.Nodup)
    (hnames : ∀ p ∈ s.storedEventLookup, p.2.name = p.1)
    (hkey : s.storageKey = mkStorageKey projectName sceneName) :
    (markAsCached s storage).2.get (mkStorageKey projectName sceneName) =
      some s.storedEventLookup ∧
    (construct projectName sceneName frameNew
        (markAsCached s storage).2).storedEventLookup = s.storedEventLookup ∧
    (markAsCached s storage).1.cached = true ∧
    (markAsCached s storage).1.preserveEvents = false := by
  have hstore : (markAsCached s storage).2.get
      (mkStorageKey projectName sceneName) = some s.storedEventLookup := by
    rw [markAsCached, ← hkey]
    exact Storage.store_get_set_self storage s.storageKey s.storedEventLookup
  refine ⟨hstore, ?_, rfl, rfl⟩
  rw [construct]
  simp only [hstore]
  exact loadStored_values s.storedEventLookup hnd hnames

/-- Witness for C5: a scene with one durable event round-trips through the
store. -/
theorem claim_C5_markAsCached_persists_witness :
    ((c5Scene.storedEventLookup.keys.Nodup) ∧
      (∀ p ∈ c5Scene.storedEventLookup, p.2.name = p.1) ∧
      c5Scene.storageKey = mkStorageKey "project" "scene") ∧
    ((markAsCached c5Scene []).2.get (mkStorageKey "project" "scene") =
      some c5Scene.storedEventLookup ∧
    (construct "project" "scene" 7
        (markAsCached c5Scene []).2).storedEventLookup =
      c5Scene.storedEventLookup ∧
    (markAsCached c5Scene []).1.cached = true ∧
    (markAsCached c5Scene []).1.preserveEvents = false) := by
  refine ⟨⟨by simp [c5Scene, EventMap.keys], ?_, by simp [c5Scene, mkStorageKey]⟩, ?_⟩
  · intro p hp
    simp [c5Scene] at hp
    rw [hp]
  · exact claim_C5_markAsCached_persists "project" "scene" 7 [] c5Scene
      (by simp [c5Scene, EventMap.keys])
      (by intro p hp; simp [c5Scene] at hp; rw [hp])
      (by simp [c5Scene, mkStorageKey])

theorem namesConsistent_set {m : EventMap} {k : String} {v : TimeEvent}
    (h : NamesConsistent m) (hv : v.name = k) : NamesConsistent (m.set k v) := by
  intro p hp
  rcases EventMap.mem_set hp with rfl | hp
  · exact hv
  · exact h p hp

theorem mem_merge {base overlay : EventMap} {p : String × TimeEvent}
    (h : p ∈ EventMap.merge base overlay) : p ∈ base ∨ p ∈ overlay := by
  induction overlay generalizing base with
  | nil => exact Or.inl h
  | cons q rest ih =>
    rw [EventMap.merge_cons_overlay] at h
    rcases ih h with h | h
    · rcases EventMap.mem_set h with rfl | h
      · exact Or.inr (List.mem_cons_self _ _)
      · exact Or.inl h
    · exact Or.inr (List.mem_cons_of_mem _ h)

theorem namesConsistent_merge {base overlay : EventMap}
    (hb : NamesConsistent base) (ho : NamesConsistent overlay) :
    NamesConsistent (EventMap.merge base overlay) := by
  intro p hp
  rcases mem_merge hp with hp | hp
  · exact hb p hp
  · exact ho p hp

theorem keys_nodup_merge {base overlay : EventMap} (hb : base.keys.Nodup) :
    (EventMap.merge base overlay).keys.Nodup := by
  induction overlay generalizing base with
  | nil => exact hb
  | cons q rest ih =>
    rw [EventMap.merge_cons_overlay]
    exact ih (EventMap.keys_nodup_set _ _ hb)

theorem loadStored_wf (events : List TimeEvent) :
    (loadStored events).keys.Nodup ∧ NamesConsistent (loadStored events) := by
  have go : ∀ (evs : List TimeEvent) (acc : EventMap), acc.keys.Nodup →
      NamesConsistent acc →
      (evs.foldl (fun a e => a.set e.name e) acc).keys.Nodup ∧
        NamesConsistent (evs.foldl (fun a e => a.set e.name e) acc) := by
    intro evs
    induction evs with
    | nil => intro acc h1 h2; exact ⟨h1, h2⟩
    | cons e rest ih =>
      intro acc h1 h2
      exact ih (acc.set e.name e) (EventMap.keys_nodup_set _ _ h1)
        (namesConsistent_set h2 rfl)
  exact go events [] (by simp [EventMap.keys]) (by intro p hp; simp at hp)

theorem wf_construct (projectName sceneName : String) (frame : ℤ)
    (storage : Storage) : WF (construct projectName sceneName frame storage) := by
  refine ⟨by simp [construct, EventMap.keys], ?_, ?_, ?_⟩
  · rw [construct]
    rcases storage.get (mkStorageKey projectName sceneName) with _ | stored
    · simp [EventMap.keys]
    · exact (loadStored_wf stored.values).1
  · intro p hp
    simp [construct] at hp
  · rw [construct]
    rcases storage.get (mkStorageKey projectName sceneName) with _ | stored
    · intro p hp
      simp at hp
    · exact (loadStored_wf stored.values).2

theorem wf_getFrameEvent (fts : ℤ → ℚ) (stf : ℚ → ℤ) {s : SceneModel}
    (name : String) (h : WF s) : WF (getFrameEvent fts stf s name).1 := by
  obtain ⟨hln, hsn, hlc, hsc⟩ := h
  rcases h1 : s.timeEventLookup.get name with _ | ev
  · rcases h2 : s.storedEventLookup.get name with _ | sev
    · rw [getFrameEvent_none_none fts stf s name h1 h2]
      exact ⟨EventMap.keys_nodup_set _ _ hln, hsn,
        namesConsistent_set hlc rfl, hsc⟩
    · rcases h3 : s.preserveEvents with _ | _
      · rw [getFrameEvent_none_some_of_not_preserve fts stf s name sev h1 h2 h3]
        exact ⟨EventMap.keys_nodup_set _ _ hln, hsn,
          namesConsistent_set hlc rfl, hsc⟩
      · rw [getFrameEvent_none_some_of_preserve fts stf s name sev h1 h2 h3]
        exact ⟨EventMap.keys_nodup_set _ _ hln, hsn,
          namesConsistent_set hlc rfl, hsc⟩
  · have hevname : ev.name = name := hlc (name, ev) (EventMap.mem_of_get_eq_some h1)
    by_cases h2 : ev.initialTime = fts (s.frame - s.firstFrame)
    · rw [getFrameEvent_some_eq fts stf s name ev h1 h2]
      exact ⟨hln, hsn, hlc, hsc⟩
    · rcases h3 : s.preserveEvents with _ | _
      · rw [getFrameEvent_some_ne_of_not_preserve fts stf s name ev h1 h2 h3]
        exact ⟨EventMap.keys_nodup_set _ _ hln, EventMap.keys_nodup_set _ _ hsn,
          namesConsistent_set hlc hevname, namesConsistent_set hsc hevname⟩
      · rw [getFrameEvent_some_ne_of_preserve fts stf s name ev h1 h2 h3]
        exact ⟨EventMap.keys_nodup_set _ _ hln, EventMap.keys_nodup_set _ _ hsn,
          namesConsistent_set hlc hevname, namesConsistent_set hsc hevname⟩

theorem wf_setFrameEvent {s : SceneModel} (name : String) (offset : ℚ)
    (preserve : Bool) (h : WF s) : WF (setFrameEvent s name offset preserve) := by
  obtain ⟨hln, hsn, hlc, hsc⟩ := h
  rcases h1 : s.timeEventLookup.get name with _ | ev
  · simpa [setFrameEvent, h1] using ⟨hln, hsn, hlc, hsc⟩
  · have hevname : ev.name = name := hlc (name, ev) (EventMap.mem_of_get_eq_some h1)
    by_cases h2 : ev.offset = offset
    · simpa [setFrameEvent, h1, h2] using ⟨hln, hsn, hlc, hsc⟩
    · simp only [setFrameEvent, h1, h2, if_neg]
      exact ⟨EventMap.keys_nodup_set _ _ hln, EventMap.keys_nodup_set _ _ hsn,
        namesConsistent_set hlc hevname, namesConsistent_set hsc hevname⟩

theorem wf_reload {s : SceneModel} (h : WF s) : WF (reload s) := by
  obtain ⟨hln, hsn, hlc, hsc⟩ := h
  refine ⟨by simp [reload, EventMap.keys], keys_nodup_merge hsn,
    by intro p hp; simp [reload] at hp, namesConsistent_merge hsc hlc⟩

theorem wf_markAsCached {s : SceneModel} (storage : Storage) (h : WF s) :
    WF (markAsCached s storage).1 := h

end Scene

/-- C6: an invalid yielded value — truthy but not an awaitable — appearing
after any run of truthy yields makes the step log exactly one diagnostic
with that value and resume the routine with no value, after which the step
continues processing the remaining script exactly as it would have,
reaching the same completion status instead of failing. -/
theorem claim_C6_invalid_yield_logs_and_continues (pre post : List RunnerOutput)
    (v : ℕ) (h : ∀ x ∈ pre, x.truthy = true) :
    sceneNext (pre ++ RunnerOutput.invalidY v :: post) =
      { warnings := pre.filterMap warnOf ++ v :: (sceneNext post).warnings
        resumes := pre.map resumeOf ++ none :: (sceneNext post).resumes
        finished := (sceneNext post).finished
        rest := (sceneNext post).rest } := by
  induction pre with
  | nil => simp [sceneNext]
  | cons x rest ih =>
    have hx : x.truthy = true := h x (List.mem_cons_self _ _)
    have h' : ∀ y ∈ rest, y.truthy = true := fun y hy =>
      h y (List.mem_cons_of_mem _ hy)
    cases x with
    | promiseY w => simp [sceneNext, warnOf, resumeOf, ih h']
    | invalidY w => simp [sceneNext, warnOf, resumeOf, ih h']
    | pause => simp [RunnerOutput.truthy] at hx
    | finish => simp [RunnerOutput.truthy] at hx

/-- Witness for C6: a script that yields a settled awaitable, then the
invalid value 7, then a falsy synchronisation yield. -/
theorem claim_C6_invalid_yield_logs_and_continues_witness :
    (∀ x ∈ [RunnerOutput.promiseY 5], x.truthy = true) ∧
    sceneNext ([RunnerOutput.promiseY 5] ++
        RunnerOutput.invalidY 7 :: [RunnerOutput.pause]) =
      { warnings := [RunnerOutput.promiseY 5].filterMap warnOf ++
          7 :: (sceneNext [RunnerOutput.pause]).warnings
        resumes := [RunnerOutput.promiseY 5].map resumeOf ++
          none :: (sceneNext [RunnerOutput.pause]).resumes
        finished := (sceneNext [RunnerOutput.pause]).finished
        rest := (sceneNext [RunnerOutput.pause]).rest } :=
  ⟨by decide,
    claim_C6_invalid_yield_logs_and_continues [RunnerOutput.promiseY 5]
      [RunnerOutput.pause] 7 (by decide)⟩

theorem layoutLoop_le (dirty : ℕ → Bool) (idx limit : ℕ) :
    (layoutLoop dirty idx limit).1 ≤ limit := by
  induction limit generalizing idx with
  | zero => simp [layoutLoop]
  | succ l ih =>
    by_cases h : dirty idx
    · simpa [layoutLoop, h] using ih (idx + 1)
    · simp [layoutLoop, h]

theorem layoutLoop_all_dirty (dirty : ℕ → Bool) (hd : ∀ n, dirty n = true)
    (idx limit : ℕ) : layoutLoop dirty idx limit = (limit, 0) := by
  induction limit generalizing idx with
  | zero => rfl
  | succ l ih => simp [layoutLoop, hd idx, ih (idx + 1)]

/-- C7: if the dirty signal never stabilises, `updateLayout` performs
exactly 10 extra layout passes beyond the initial one and logs the warning;
and for every behaviour of the dirty signal the retry loop performs at most
10 extra passes — the function is total, so it never loops indefinitely. -/
theorem claim_C7_layout_retry_bound (dirty : ℕ → Bool) :
    ((∀ n, dirty n = true) → updateLayout dirty = (10, true, true)) ∧
    (updateLayout dirty).1 ≤ 10 := by
  constructor
  · intro hd
    simp [updateLayout, layoutLoop_all_dirty dirty hd, hd 0]
  · simpa [updateLayout] using layoutLoop_le dirty 1 10

/-- Witness for C7: the always-dirty signal. -/
theorem claim_C7_layout_retry_bound_witness :
    ((∀ n : ℕ, (fun _ : ℕ => true) n = true) ∧
      updateLayout (fun _ => true) = (10, true, true)) ∧
    (updateLayout (fun _ => true)).1 ≤ 10 :=
  ⟨⟨fun _ => rfl,
    (claim_C7_layout_retry_bound (fun _ => true)).1 (fun _ => rfl)⟩,
    (claim_C7_layout_retry_bound (fun _ => true)).2⟩

theorem applyColorSpace_moblur (s : StageState) (c : String) :
    (applyColorSpace s c).moblurRenderer = s.moblurRenderer := by
  unfold applyColorSpace
  split <;> rfl

theorem applyColorSpace_nextId (s : StageState) (c : String) :
    (applyColorSpace s c).nextMoblurId = s.nextMoblurId := by
  unfold applyColorSpace
  split <;> rfl

theorem applySize_moblur (s : StageState) (size : V2) (rs : ℚ) :
    (applySize s size rs).moblurRenderer = s.moblurRenderer := by
  unfold applySize
  split <;> rfl

theorem applySize_nextId (s : StageState) (size : V2) (rs : ℚ) :
    (applySize s size rs).nextMoblurId = s.nextMoblurId := by
  unfold applySize
  split <;> rfl

/-- After `applySize` the stored size is the requested one: either it was
just stored, or the change test shows it was already equal. -/
theorem applySize_size (s : StageState) (size : V2) (rs : ℚ) :
    (applySize s size rs).size = size := by
  unfold applySize
  split
  · rfl
  · next h =>
    rw [not_or, not_ne_iff, not_ne_iff] at h
    exact h.1.symm

/-- C8: the final surface is first cleared, then filled with the background
if one is configured; with no previous scene only the current buffer is
drawn and the current scene's flag is never consulted; with a previous
scene, the previous buffer is drawn before the current buffer when the flag
is false and after it when the flag is true. -/
theorem claim_C8_render_final_order (background : Option String) (flag : Bool) :
    renderFinalOps background flag false =
      RenderOp.clearRect ::
        ((match background with
          | some c => [RenderOp.fillBackground c]
          | none => []) ++ [RenderOp.drawCurrent]) ∧
    renderFinalOps background false true =
      RenderOp.clearRect ::
        ((match background with
          | some c => [RenderOp.fillBackground c]
          | none => []) ++ [RenderOp.drawPrevious, RenderOp.drawCurrent]) ∧
    renderFinalOps background true true =
      RenderOp.clearRect ::
        ((match background with
          | some c => [RenderOp.fillBackground c]
          | none => []) ++ [RenderOp.drawCurrent, RenderOp.drawPrevious]) := by
  rcases background with _ | c <;> simp [renderFinalOps]

/-- C9: after any `configure` call the accumulator is present iff the
effective sample count exceeds 1 and the capability probe reports support;
and when an accumulator was present before the call and the new settings
keep it enabled, the same instance is kept — same identity — and is resized
to the new size and given the new sample count rather than recreated. -/
theorem claim_C9_configure_moblur (support : Bool) (s : StageState)
    (o : StageOptions) :
    ((configure support s o).moblurRenderer.isSome = true ↔
      (1 < o.motionBlur.getD s.motionBlurSamples ∧ support = true)) ∧
    (∀ r, s.moblurRenderer = some r →
      1 < o.motionBlur.getD s.motionBlurSamples → support = true →
      (configure support s o).moblurRenderer =
        some { r with
               size := o.size.getD s.size
               samples := o.motionBlur.getD s.motionBlurSamples }) := by
  by_cases hc : o.motionBlur.getD s.motionBlurSamples ≤ 1 ∨ support = false
  · have hno : ¬(1 < o.motionBlur.getD s.motionBlurSamples ∧ support = true) := by
      rcases hc with hc | hc
      · exact fun h => absurd h.1 (not_lt.mpr hc)
      · exact fun h => by rw [hc] at h; exact Bool.false_ne_true h.2
    constructor
    · simp only [configure, if_pos hc]
      simpa using hno
    · intro r _ h1 h2
      exact absurd ⟨h1, h2⟩ hno
  · rw [not_or] at hc
    have h2 : support = true := by
      rcases hsup : support with _ | _
      · exact absurd hsup hc.2
      · rfl
    rcases hmr : s.moblurRenderer with _ | r0
    · constructor
      · simp [configure, if_neg, hc.1, h2, applySize_moblur,
          applyColorSpace_moblur, hmr, not_le.mp hc.1]
      · intro r hr
        cases hr
    · constructor
      · simp [configure, hc.1, h2, applySize_moblur, applyColorSpace_moblur, hmr,
          not_le.mp hc.1]
      · intro r hr _ _
        rw [Option.some.injEq] at hr
        subst hr
        simp [configure, hc.1, h2, applySize_moblur, applyColorSpace_moblur, hmr,
          applySize_size, not_le.mp hc.1]

/-- Witness for C9: a stage with a live accumulator (identity 0) is
reconfigured to a larger size and 4 samples; the accumulator keeps identity
0 with the new size and sample count. -/
theorem claim_C9_configure_moblur_witness :
    (({ background := none, resolutionScale := 1, colorSpace := "srgb"
        size := ⟨4, 3⟩, motionBlurSamples := 1
        moblurRenderer := some ⟨0, ⟨4, 3⟩, 2⟩, nextMoblurId := 1 } :
          StageState).moblurRenderer = some ⟨0, ⟨4, 3⟩, 2⟩ ∧
      (1 : ℚ) <
        ({ motionBlur := some 4, size := some ⟨8, 6⟩ } : StageOptions).motionBlur.getD
          ({ background := none, resolutionScale := 1, colorSpace := "srgb"
             size := ⟨4, 3⟩, motionBlurSamples := 1
             moblurRenderer := some ⟨0, ⟨4, 3⟩, 2⟩, nextMoblurId := 1 } :
              StageState).motionBlurSamples ∧
      (true : Bool) = true) ∧
    (configure true
        { background := none, resolutionScale := 1, colorSpace := "srgb"
          size := ⟨4, 3⟩, motionBlurSamples := 1
          moblurRenderer := some ⟨0, ⟨4, 3⟩, 2⟩, nextMoblurId := 1 }
        { motionBlur := some 4, size := some ⟨8, 6⟩ }).moblurRenderer =
      some ⟨0, ⟨8, 6⟩, 4⟩ := by
  constructor
  · exact ⟨rfl, by norm_num, rfl⟩
  · exact (claim_C9_configure_moblur true
      { background := none, resolutionScale := 1, colorSpace := "srgb"
        size := ⟨4, 3⟩, motionBlurSamples := 1
        moblurRenderer := some ⟨0, ⟨4, 3⟩, 2⟩, nextMoblurId := 1 }
      { motionBlur := some 4, size := some ⟨8, 6⟩ }).2
      ⟨0, ⟨4, 3⟩, 2⟩ rfl (by norm_num) rfl

end MotionCanvas
